import Mathlib

/-!
Shallow embedding of `packages/app-builder-lib/src/electron/ElectronFramework.ts`
(electron-builder staging pipeline): branding resolution, download-option
construction, electron version resolution, distribution acquisition
(`unpack`), post-acquisition cleanup, and the pre-extra-files hook
(Windows executable rename and macOS locale pruning).

Filesystem and subprocess effects are modelled as explicit event traces;
external collaborators (`statOrNull`, `isSafeToUnpackElectronOnRemoteBuildServer`,
`getElectronVersionFromInstalled`, `computeElectronVersion`,
`getElectronSrcDir`, `getElectronDestinationDir`) are oracles supplied as
parameters, matching the boundaries of the source file.
JavaScript `undefined`/`null` are both modelled as `Option.none`.
-/

set_option autoImplicit false

namespace ElectronFramework

/-- `ElectronPlatformName` from ElectronFramework.ts line 19:
`"darwin" | "linux" | "win32" | "mas"`. -/
inductive ElectronPlatformName where
  | darwin
  | linux
  | win32
  | mas
deriving DecidableEq, Repr

/-- The string value of an `ElectronPlatformName` (they are string literals in TS). -/
def ElectronPlatformName.toStr : ElectronPlatformName → String
  | .darwin => "darwin"
  | .linux => "linux"
  | .win32 => "win32"
  | .mas => "mas"

/-- `Platform` from builder-util (the packager's target platform enum). -/
inductive PlatformTy where
  | MAC
  | LINUX
  | WINDOWS
deriving DecidableEq, Repr

/-- `ElectronBrandingOptions` (lines 25-28): both fields optional. -/
structure ElectronBrandingOptions where
  projectName : Option String
  productName : Option String
deriving DecidableEq, Repr

/-- `ElectronDownloadOptions` (lines 37-62). All fields optional; JS
`undefined` and `null` are both `none`. -/
structure ElectronDownloadOptions where
  version : Option String
  cache : Option String
  mirror : Option String
  customDir : Option String
  customFilename : Option String
  strictSSL : Option Bool
  isVerifyChecksum : Option Bool
  platform : Option ElectronPlatformName
  arch : Option String
deriving DecidableEq, Repr

/-- The all-absent `ElectronDownloadOptions` record (an empty JS object). -/
def edoEmpty : ElectronDownloadOptions :=
  ⟨none, none, none, none, none, none, none, none, none⟩

/-- The `electronDist` configuration value: a static path string or a
function of the prepare options. A function value is modelled by the
string-or-null it returns on the (single) prepare context it is applied to,
mirroring `typeof electronDist === "function" ? electronDist(prepareOptions) : electronDist`
(line 172). -/
inductive ElectronDistSpec where
  | staticPath (p : String)
  | fromFunction (result : Option String)
deriving DecidableEq, Repr

/-- The slice of `Configuration` consumed by this file:
`electronVersion?`, `electronBranding?`, `electronDist?`, `electronDownload?`. -/
structure Configuration where
  electronVersion : Option String
  electronBranding : Option ElectronBrandingOptions
  electronDist : Option ElectronDistSpec
  electronDownload : Option ElectronDownloadOptions
deriving DecidableEq, Repr

/-- JavaScript `a || d` on an optional string `a`: `undefined`, `null` and
`""` are falsy and select the default. -/
def jsOrStr (a : Option String) (d : String) : String :=
  match a with
  | none => d
  | some s => if s = "" then d else s

/-- `Required<ElectronBrandingOptions>`: the return type of
`createBrandingOpts` — both fields present. -/
structure ElectronBrandingRequired where
  projectName : String
  productName : String
deriving DecidableEq, Repr

/-- `createBrandingOpts` (lines 30-35):
`projectName: opts.electronBranding?.projectName || "electron"`,
`productName: opts.electronBranding?.productName || "Electron"`. -/
def createBrandingOpts (opts : Configuration) : ElectronBrandingRequired :=
  { projectName := jsOrStr (opts.electronBranding.bind ElectronBrandingOptions.projectName) "electron"
    productName := jsOrStr (opts.electronBranding.bind ElectronBrandingOptions.productName) "Electron" }

/-- JS object spread `{ ...base, ...over }` on one optional field: a field
present in `over` wins. -/
def spreadField {α : Type} (over base : Option α) : Option α :=
  match over with
  | some v => some v
  | none => base

/-- `createDownloadOpts` (lines 64-71):
`{ platform, arch, version: electronVersion, ...opts.electronDownload }` —
the configured `electronDownload` object is spread last, so each field
present there overrides the computed one. -/
def createDownloadOpts (opts : Configuration) (platform : ElectronPlatformName) (arch : String)
    (electronVersion : String) : ElectronDownloadOptions :=
  let base : ElectronDownloadOptions :=
    { edoEmpty with platform := some platform, arch := some arch, version := some electronVersion }
  match opts.electronDownload with
  | none => base
  | some d =>
    { version := spreadField d.version base.version
      cache := spreadField d.cache base.cache
      mirror := spreadField d.mirror base.mirror
      customDir := spreadField d.customDir base.customDir
      customFilename := spreadField d.customFilename base.customFilename
      strictSSL := spreadField d.strictSSL base.strictSSL
      isVerifyChecksum := spreadField d.isVerifyChecksum base.isVerifyChecksum
      platform := spreadField d.platform base.platform
      arch := spreadField d.arch base.arch }

/-- POSIX `path.join a b` for the (always relative, slash-free) second
components used in this file. -/
def pathJoin (a b : String) : String := a ++ "/" ++ b

/-- JS `s.endsWith(suffix)`, over the character sequence. -/
def strEndsWith (s suffix : String) : Bool := suffix.data.isSuffixOf s.data

/-- JS `s.substring(0, n)`, over the character sequence. -/
def strTake (s : String) (n : Nat) : String := String.mk (s.data.take n)

/-- JS `s.length`, over the character sequence. -/
def strLen (s : String) : Nat := s.data.length

/-- POSIX `path.isAbsolute`: the path starts with "/". -/
def pathIsAbsolute (p : String) : Bool :=
  match p.data with
  | [] => false
  | c :: _ => c == '/'

/-- POSIX `path.resolve base p` as used at line 175 (only ever called with a
relative `p`, after the `path.isAbsolute` guard). -/
def pathResolve (base p : String) : String :=
  if pathIsAbsolute p then p else pathJoin base p

/-- JS template interpolation of an optional string (`undefined` prints as
"undefined", as in a JS template literal). -/
def jsStr (o : Option String) : String := o.getD "undefined"

/-- The packager context consumed by this file. Function-valued fields are
the external collaborators `getElectronSrcDir` / `getElectronDestinationDir`
/ `getResourcesDir` (defined per-platform outside this file) and the
predicate `isSafeToUnpackElectronOnRemoteBuildServer` (from
platformPackager, a pure function of the packager), supplied as oracles. -/
structure Packager where
  config : Configuration
  projectDir : String
  platform : PlatformTy
  isPrepackedAppAsar : Bool
  productFilename : String
  executableName : String
  safeToUnpackOnRemote : Bool
  getElectronSrcDir : String → String
  getElectronDestinationDir : String → String

/-- `PrepareApplicationStageDirectoryOptions` — the fields read by `unpack`. -/
structure PrepareOptions where
  packager : Packager
  appOutDir : String
  platformName : ElectronPlatformName
  arch : String

/-- The filesystem / subprocess effects performed by `unpack` and
`cleanupAfterUnpack`, in program order. `renameCatch` is the
best-effort rename at lines 213-215 (`.catch(() => {})`). -/
inductive FsEvent where
  | logInfo (msg : String)
  | execAppBuilder (options : ElectronDownloadOptions) (output : String) (distMacOsAppName : String)
  | emptyDirEv (p : String)
  | copyDirEv (source destination : String) (isUseHardLink : Bool)
  | unlinkIfExistsEv (p : String)
  | renameCatch (source destination : String)
deriving DecidableEq, Repr

/-- Which acquisition path `unpack` took: `skipped` (remote-safe early
return at lines 185-187), `delegated` (external `unpack-electron` worker,
line 188), or `localCopy` (emptyDir + copyDir, lines 190-197). -/
inductive AcquisitionStrategy where
  | skipped
  | delegated
  | localCopy
deriving DecidableEq, Repr

/-- The outcome of `unpack`: the effect trace, the (possibly mutated)
download options, the acquisition path taken, and whether
`cleanupAfterUnpack` was reached. -/
structure UnpackResult where
  events : List FsEvent
  options : ElectronDownloadOptions
  strategy : AcquisitionStrategy
  cleanupRan : Bool
deriving Repr

/-- Environment oracle for `unpack`: which paths exist
(`statOrNull(p) != null`). -/
structure UnpackEnv where
  fsExists : String → Bool

/-- The `resourcesPath` computation of `cleanupAfterUnpack` (lines 204-206):
under the mac app bundle on macOS, `out/resources` otherwise. -/
def cleanupResourcesPath (prepareOptions : PrepareOptions) (distMacOsAppName : String) : String :=
  let out := prepareOptions.appOutDir
  if prepareOptions.packager.platform = PlatformTy.MAC then
    pathJoin (pathJoin (pathJoin out distMacOsAppName) "Contents") "Resources"
  else pathJoin out "resources"

/-- `cleanupAfterUnpack` (lines 203-217): the marker removals are guarded
by `isFullCleanup`; the LICENSE rename is guarded only by `!isMac` and is
best-effort. The three actions run in a `Promise.all`; the trace lists
them in source order. -/
def cleanupAfterUnpack (prepareOptions : PrepareOptions) (distMacOsAppName : String)
    (isFullCleanup : Bool) : List FsEvent :=
  let out := prepareOptions.appOutDir
  let isMac := prepareOptions.packager.platform = PlatformTy.MAC
  let resourcesPath := cleanupResourcesPath prepareOptions distMacOsAppName
  (if isFullCleanup then [FsEvent.unlinkIfExistsEv (pathJoin resourcesPath "default_app.asar")] else [])
    ++ (if isFullCleanup then [FsEvent.unlinkIfExistsEv (pathJoin out "version")] else [])
    ++ (if isMac then []
        else [FsEvent.renameCatch (pathJoin out "LICENSE") (pathJoin out "LICENSE.electron.txt")])

/-- The `electronDist` resolution at line 172:
`typeof electronDist === "function" ? electronDist(prepareOptions) : electronDist`. -/
def resolveElectronDist (prepareOptions : PrepareOptions) : Option String :=
  match prepareOptions.packager.config.electronDist with
  | none => none
  | some (ElectronDistSpec.staticPath p) => some p
  | some (ElectronDistSpec.fromFunction r) => r

/-- The expected cached-archive name at line 174:
`electron-v${options.version}-${platformName}-${options.arch}.zip`. -/
def zipFileName (platformName : ElectronPlatformName) (options : ElectronDownloadOptions) : String :=
  "electron-v" ++ jsStr options.version ++ "-" ++ platformName.toStr ++ "-" ++ jsStr options.arch ++ ".zip"

/-- The resolved distribution directory at line 175. -/
def resolvedDistDir (prepareOptions : PrepareOptions) (d : String) : String :=
  if pathIsAbsolute d then d else pathResolve prepareOptions.packager.projectDir d

/-- `unpack` (lines 168-201). Mirrors the source control flow: resolve
`electronDist`; if it names a directory holding the expected zip, use it as
the download cache and null out `dist`; then either return early (remote
build server), delegate to the external worker, or empty + copy; finally
run `cleanupAfterUnpack` (not reached on the early return). -/
def unpack (env : UnpackEnv) (prepareOptions : PrepareOptions)
    (options0 : ElectronDownloadOptions) (distMacOsAppName : String) : UnpackResult :=
  let packager := prepareOptions.packager
  let appOutDir := prepareOptions.appOutDir
  let platformName := prepareOptions.platformName
  let dist0 := resolveElectronDist prepareOptions
  let checked : Option String × ElectronDownloadOptions × List FsEvent :=
    match dist0 with
    | none => (none, options0, [])
    | some d =>
      let zipFile := zipFileName platformName options0
      let resolvedDist := resolvedDistDir prepareOptions d
      if env.fsExists (pathJoin resolvedDist zipFile) then
        (none, { options0 with cache := some resolvedDist }, [FsEvent.logInfo "Resolved electronDist"])
      else
        (some d, options0, [])
  let dist := checked.1
  let options := checked.2.1
  let ev0 := checked.2.2
  match dist with
  | none =>
    if packager.safeToUnpackOnRemote then
      { events := ev0, options := options, strategy := AcquisitionStrategy.skipped, cleanupRan := false }
    else
      { events := ev0 ++ [FsEvent.execAppBuilder options appOutDir distMacOsAppName]
          ++ cleanupAfterUnpack prepareOptions distMacOsAppName false
        options := options
        strategy := AcquisitionStrategy.delegated
        cleanupRan := true }
  | some d =>
    let source := packager.getElectronSrcDir d
    let destination := packager.getElectronDestinationDir appOutDir
    { events := ev0 ++ [FsEvent.logInfo "copying Electron", FsEvent.emptyDirEv appOutDir,
          FsEvent.copyDirEv source destination false]
        ++ cleanupAfterUnpack prepareOptions distMacOsAppName true
      options := options
      strategy := AcquisitionStrategy.localCopy
      cleanupRan := true }

/-- The I/O performed by version resolution: `readInstalled` is a call to
`getElectronVersionFromInstalled(projectDir)`, `readManifest` a call to
`computeElectronVersion(projectDir, lazyMetadata)`. -/
inductive VersionRead where
  | readInstalled
  | readManifest
deriving DecidableEq, Repr

/-- Oracle results of the external version readers (electronVersion.ts,
outside this file): `getElectronVersionFromInstalled` returns a version or
null; `computeElectronVersion` returns a version or throws. -/
structure VersionEnv where
  installedVersion : Option String
  computedVersion : Except String String

/-- The data of the constructed `ElectronFramework` object relevant here
(constructor at line 125): `name` = branding projectName, `version`,
`distMacOsAppName` = branding productName + ".app". -/
structure ElectronFrameworkData where
  name : String
  version : String
  distMacOsAppName : String
deriving DecidableEq, Repr

/-- The `new ElectronFramework(branding.projectName, version, branding.productName + ".app")`
construction at line 165. -/
def mkFrameworkData (branding : ElectronBrandingRequired) (version : String) : ElectronFrameworkData :=
  { name := branding.projectName
    version := version
    distMacOsAppName := branding.productName ++ ".app" }

/-- `createElectronFrameworkSupport` (lines 149-166). Returns the
framework data together with the configuration after the version
write-back (`configuration.electronVersion = version`, line 161), plus the
list of external version reads performed; throws (Except.error) when a
prepacked asar's installed version cannot be found. -/
def createElectronFrameworkSupport (env : VersionEnv) (configuration : Configuration)
    (packager : Packager) : Except String (ElectronFrameworkData × Configuration) × List VersionRead :=
  match configuration.electronVersion with
  | some version =>
    (Except.ok (mkFrameworkData (createBrandingOpts configuration) version, configuration), [])
  | none =>
    if packager.isPrepackedAppAsar then
      match env.installedVersion with
      | none => (Except.error "Cannot compute electron version for prepacked asar", [VersionRead.readInstalled])
      | some version =>
        let configuration2 := { configuration with electronVersion := some version }
        (Except.ok (mkFrameworkData (createBrandingOpts configuration2) version, configuration2),
          [VersionRead.readInstalled])
    else
      match env.computedVersion with
      | Except.error e => (Except.error e, [VersionRead.readManifest])
      | Except.ok version =>
        let configuration2 := { configuration with electronVersion := some version }
        (Except.ok (mkFrameworkData (createBrandingOpts configuration2) version, configuration2),
          [VersionRead.readManifest])

/-- The `electronLanguages` platform option: `string | string[] | undefined`. -/
inductive StringOrArray where
  | null
  | single (s : String)
  | multiple (l : List String)
deriving DecidableEq, Repr

/-- `asArray` from builder-util: null/undefined becomes `[]`, a single
string becomes a one-element array, an array is returned as-is. -/
def asArray : StringOrArray → List String
  | StringOrArray.null => []
  | StringOrArray.single s => [s]
  | StringOrArray.multiple l => l

/-- The per-entry removal decision of the macOS locale-pruning scan
(lines 100-107): an entry is removed when it ends in ".lproj" and the
language prefix (`file.substring(0, file.length - ".lproj".length)`) is
not in the allow-list. -/
def localeRemoveDecision (wantedLanguages : List String) (file : String) : Bool :=
  if !(strEndsWith file ".lproj") then false
  else
    let language := strTake file (strLen file - strLen ".lproj")
    !(wantedLanguages.contains language)

/-- The set (as a list in directory order) of entries removed by the macOS
locale pruning of `beforeCopyExtraFiles` (lines 89-111): the early return
at lines 90-92 removes nothing when the allow-list is empty. -/
def removedLocales (electronLanguages : StringOrArray) (entries : List String) : List String :=
  let wantedLanguages := asArray electronLanguages
  if wantedLanguages.length = 0 then []
  else entries.filter (localeRemoveDecision wantedLanguages)

/-- The resources-directory contents after the macOS locale pruning pass. -/
def resourcesAfterPrune (electronLanguages : StringOrArray) (entries : List String) : List String :=
  let wantedLanguages := asArray electronLanguages
  if wantedLanguages.length = 0 then entries
  else entries.filter (fun f => !(localeRemoveDecision wantedLanguages f))

/-- `fs-extra` `rename src dst` over a directory modelled as the list of
its file paths: fails (promise rejection) when `src` does not exist,
otherwise replaces `src` by `dst`. -/
def renameFs (fs : List String) (src dst : String) : Except String (List String) :=
  if fs.contains src then Except.ok (dst :: fs.erase src)
  else Except.error ("ENOENT: no such file or directory, rename " ++ src)

/-- The Windows branch of `beforeCopyExtraFiles` (lines 83-85):
`await rename(appOutDir/<projectName>.exe, appOutDir/<productFilename>.exe)`
with no catch — a rejection propagates out of the hook. -/
def beforeCopyExtraFilesWin (config : Configuration) (appOutDir productFilename : String)
    (fs : List String) : Except String (List String) :=
  let electronBranding := createBrandingOpts config
  renameFs fs (pathJoin appOutDir (electronBranding.projectName ++ ".exe"))
    (pathJoin appOutDir (productFilename ++ ".exe"))

/-! Concrete fixtures used by witnesses and counterexamples. -/

/-- A configuration with nothing set. -/
def cfgEmpty : Configuration := ⟨none, none, none, none⟩

/-- A packager fixture: linux target, not prepacked, local unpack allowed. -/
def pkgEx : Packager :=
  { config := cfgEmpty
    projectDir := "/project"
    platform := PlatformTy.LINUX
    isPrepackedAppAsar := false
    productFilename := "MyApp"
    executableName := "myapp"
    safeToUnpackOnRemote := false
    getElectronSrcDir := fun dist => pathJoin dist "electron"
    getElectronDestinationDir := fun out => out }

/-! ## C9: branding defaults -/

/-- A field of an optional branding record is JS-falsy when it is absent or
the empty string. -/
def brandingFieldFalsy (o : Option String) : Prop := o = none ∨ o = some ""

/-- C9: `createBrandingOpts` always returns both fields populated (nonempty);
each field independently falls back to its default ("electron" /
"Electron") exactly when the configured field is absent or falsy, keeps a
truthy configured value, and depends on nothing but its own configured
field; an empty `electronBranding` object yields the default pair. -/
theorem branding_defaults_independent :
    (∀ opts : Configuration,
      (createBrandingOpts opts).projectName ≠ "" ∧ (createBrandingOpts opts).productName ≠ "")
    ∧ (∀ opts : Configuration,
        brandingFieldFalsy (opts.electronBranding.bind ElectronBrandingOptions.projectName) →
        (createBrandingOpts opts).projectName = "electron")
    ∧ (∀ opts : Configuration,
        brandingFieldFalsy (opts.electronBranding.bind ElectronBrandingOptions.productName) →
        (createBrandingOpts opts).productName = "Electron")
    ∧ (∀ (opts : Configuration) (s : String),
        opts.electronBranding.bind ElectronBrandingOptions.projectName = some s → s ≠ "" →
        (createBrandingOpts opts).projectName = s)
    ∧ (∀ (opts : Configuration) (s : String),
        opts.electronBranding.bind ElectronBrandingOptions.productName = some s → s ≠ "" →
        (createBrandingOpts opts).productName = s)
    ∧ (∀ opts opts' : Configuration,
        opts.electronBranding.bind ElectronBrandingOptions.projectName =
          opts'.electronBranding.bind ElectronBrandingOptions.projectName →
        (createBrandingOpts opts).projectName = (createBrandingOpts opts').projectName)
    ∧ (∀ opts opts' : Configuration,
        opts.electronBranding.bind ElectronBrandingOptions.productName =
          opts'.electronBranding.bind ElectronBrandingOptions.productName →
        (createBrandingOpts opts).productName = (createBrandingOpts opts').productName)
    ∧ (∀ opts : Configuration, opts.electronBranding = some ⟨none, none⟩ →
        createBrandingOpts opts = ⟨"electron", "Electron"⟩) := by
  refine ⟨?_, ?_, ?_, ?_, ?_, ?_, ?_, ?_⟩
  · intro opts
    constructor <;>
      · rcases hb : opts.electronBranding.bind ElectronBrandingOptions.projectName with _ | s <;>
          rcases hc : opts.electronBranding.bind ElectronBrandingOptions.productName with _ | t <;>
          simp [createBrandingOpts, jsOrStr, hb, hc] <;> split_ifs <;> simp_all
  · intro opts h
    rcases h with h | h <;> simp [createBrandingOpts, jsOrStr, h]
  · intro opts h
    rcases h with h | h <;> simp [createBrandingOpts, jsOrStr, h]
  · intro opts s h hs
    simp [createBrandingOpts, jsOrStr, h, hs]
  · intro opts s h hs
    simp [createBrandingOpts, jsOrStr, h, hs]
  · intro opts opts' h
    simp [createBrandingOpts, jsOrStr, h]
  · intro opts opts' h
    simp [createBrandingOpts, jsOrStr, h]
  · intro opts h
    simp [createBrandingOpts, jsOrStr, h]

/-- C9 witness: with `electronBranding = { productName: "" }` (projectName
absent, productName falsy) both defaults are selected. -/
theorem branding_defaults_independent_witness :
    (createBrandingOpts ⟨none, some ⟨none, some ""⟩, none, none⟩).projectName = "electron"
    ∧ (createBrandingOpts ⟨none, some ⟨none, some ""⟩, none, none⟩).productName = "Electron" :=
  ⟨branding_defaults_independent.2.1 ⟨none, some ⟨none, some ""⟩, none, none⟩ (Or.inl rfl),
   branding_defaults_independent.2.2.1 ⟨none, some ⟨none, some ""⟩, none, none⟩ (Or.inr rfl)⟩

/-! ## C10: electronDownload spread overrides computed fields -/

/-- Spreading over an absent base field keeps the override field as-is. -/
theorem spreadField_none {α : Type} (x : Option α) : spreadField x none = x := by
  cases x <;> rfl

/-- An `electronDownload` fixture carrying its own version/platform/arch. -/
def edoOverride : ElectronDownloadOptions :=
  { edoEmpty with
      version := some "29.4.6"
      platform := some ElectronPlatformName.darwin
      arch := some "arm64" }

/-- A configuration whose `electronDownload` is `edoOverride`. -/
def cfgDownload : Configuration := ⟨none, none, none, some edoOverride⟩

/-- C10: in `createDownloadOpts` the configured `electronDownload` object is
spread after the computed fields, so every field present in it (version,
platform, arch, and the pass-through fields) overrides the
pipeline-computed value; absent fields keep the computed
version/platform/arch. -/
theorem download_opts_spread_overrides (opts : Configuration) (platform : ElectronPlatformName)
    (arch electronVersion : String) (d : ElectronDownloadOptions)
    (h : opts.electronDownload = some d) :
    (∀ w, d.version = some w →
      (createDownloadOpts opts platform arch electronVersion).version = some w)
    ∧ (∀ p, d.platform = some p →
      (createDownloadOpts opts platform arch electronVersion).platform = some p)
    ∧ (∀ a, d.arch = some a →
      (createDownloadOpts opts platform arch electronVersion).arch = some a)
    ∧ (d.version = none →
      (createDownloadOpts opts platform arch electronVersion).version = some electronVersion)
    ∧ (d.platform = none →
      (createDownloadOpts opts platform arch electronVersion).platform = some platform)
    ∧ (d.arch = none →
      (createDownloadOpts opts platform arch electronVersion).arch = some arch)
    ∧ (createDownloadOpts opts platform arch electronVersion).cache = d.cache
    ∧ (createDownloadOpts opts platform arch electronVersion).mirror = d.mirror
    ∧ (createDownloadOpts opts platform arch electronVersion).customDir = d.customDir
    ∧ (createDownloadOpts opts platform arch electronVersion).customFilename = d.customFilename
    ∧ (createDownloadOpts opts platform arch electronVersion).strictSSL = d.strictSSL
    ∧ (createDownloadOpts opts platform arch electronVersion).isVerifyChecksum = d.isVerifyChecksum := by
  refine ⟨?_, ?_, ?_, ?_, ?_, ?_, ?_, ?_, ?_, ?_, ?_, ?_⟩
  · intro w hw
    simp [createDownloadOpts, h, spreadField, hw]
  · intro p hp
    simp [createDownloadOpts, h, spreadField, hp]
  · intro a ha
    simp [createDownloadOpts, h, spreadField, ha]
  · intro hw
    simp [createDownloadOpts, h, spreadField, hw, edoEmpty]
  · intro hp
    simp [createDownloadOpts, h, spreadField, hp, edoEmpty]
  · intro ha
    simp [createDownloadOpts, h, spreadField, ha, edoEmpty]
  all_goals simp [createDownloadOpts, h, edoEmpty, spreadField_none]

/-- C10 witness: an `electronDownload` carrying its own version, platform
and arch overrides the computed ("31.0.0", linux, "x64") triple. -/
theorem download_opts_spread_overrides_witness :
    (createDownloadOpts cfgDownload ElectronPlatformName.linux "x64" "31.0.0").version = some "29.4.6"
    ∧ (createDownloadOpts cfgDownload ElectronPlatformName.linux "x64" "31.0.0").platform
        = some ElectronPlatformName.darwin
    ∧ (createDownloadOpts cfgDownload ElectronPlatformName.linux "x64" "31.0.0").arch = some "arm64" :=
  ⟨(download_opts_spread_overrides cfgDownload ElectronPlatformName.linux "x64" "31.0.0"
      edoOverride rfl).1 _ rfl,
   (download_opts_spread_overrides cfgDownload ElectronPlatformName.linux "x64" "31.0.0"
      edoOverride rfl).2.1 _ rfl,
   (download_opts_spread_overrides cfgDownload ElectronPlatformName.linux "x64" "31.0.0"
      edoOverride rfl).2.2.1 _ rfl⟩

/-! ## C7: empty allow-list prunes nothing -/

/-- C7: when the configured `electronLanguages` allow-list is empty (absent
or an empty array), the macOS pre-extra-files hook removes no resources
entry: the directory contents after the hook equal the contents before. -/
theorem locale_prune_empty_allowlist (electronLanguages : StringOrArray) (entries : List String)
    (h : asArray electronLanguages = []) :
    removedLocales electronLanguages entries = []
    ∧ resourcesAfterPrune electronLanguages entries = entries := by
  constructor <;> simp [removedLocales, resourcesAfterPrune, h]

/-- C7 witness: an undefined `electronLanguages` leaves a concrete
resources directory untouched. -/
theorem locale_prune_empty_allowlist_witness :
    removedLocales StringOrArray.null ["en.lproj", "fr.lproj", "de.lproj", "readme.txt"] = []
    ∧ resourcesAfterPrune StringOrArray.null ["en.lproj", "fr.lproj", "de.lproj", "readme.txt"]
        = ["en.lproj", "fr.lproj", "de.lproj", "readme.txt"] :=
  locale_prune_empty_allowlist StringOrArray.null ["en.lproj", "fr.lproj", "de.lproj", "readme.txt"] rfl

/-! ## C6: locale pruning scenario and order-independence -/

/-- C6: with entries {en.lproj, fr.lproj, de.lproj, readme.txt} and
allow-list {en, fr}, exactly de.lproj is removed and readme.txt (not a
.lproj entry) stays; and for any allow-list, the removed set is invariant
(up to permutation) under any reordering of the directory enumeration, so
it depends only on the directory contents. -/
theorem locale_prune_scenario_order_independent :
    removedLocales (StringOrArray.multiple ["en", "fr"])
        ["en.lproj", "fr.lproj", "de.lproj", "readme.txt"] = ["de.lproj"]
    ∧ "readme.txt" ∈ resourcesAfterPrune (StringOrArray.multiple ["en", "fr"])
        ["en.lproj", "fr.lproj", "de.lproj", "readme.txt"]
    ∧ (∀ (langs : StringOrArray) (l l' : List String), l.Perm l' →
        (removedLocales langs l).Perm (removedLocales langs l')) := by
  refine ⟨by decide, by decide, fun langs l l' hp => ?_⟩
  simp only [removedLocales]
  by_cases h0 : (asArray langs).length = 0
  · simp [h0]
  · simp only [h0, if_neg]
    exact hp.filter _

/-- C6 witness: enumerating the same directory in reverse order yields a
permutation of the same removed set. -/
theorem locale_prune_scenario_order_independent_witness :
    (removedLocales (StringOrArray.multiple ["en", "fr"])
        ["readme.txt", "de.lproj", "fr.lproj", "en.lproj"]).Perm
      (removedLocales (StringOrArray.multiple ["en", "fr"])
        ["en.lproj", "fr.lproj", "de.lproj", "readme.txt"]) :=
  locale_prune_scenario_order_independent.2.2 (StringOrArray.multiple ["en", "fr"])
    ["readme.txt", "de.lproj", "fr.lproj", "en.lproj"]
    ["en.lproj", "fr.lproj", "de.lproj", "readme.txt"] (by decide)

/-! ## C8: Windows executable rename -/

/-- C8 counterexample: with default branding, the first hook run renames
`electron.exe` to `MyApp.exe`; a second run on the already-renamed
directory makes the unguarded `rename` reject, so the hook itself fails
(Except.error) rather than continuing best-effort. -/
theorem win_rename_second_run_fails :
    beforeCopyExtraFilesWin cfgEmpty "/out" "MyApp" ["/out/electron.exe"]
      = Except.ok ["/out/MyApp.exe"]
    ∧ beforeCopyExtraFilesWin cfgEmpty "/out" "MyApp" ["/out/MyApp.exe"]
      = Except.error "ENOENT: no such file or directory, rename /out/electron.exe" := by
  constructor <;> rfl

/-- C8 amended: on Windows the hook renames `<projectName>.exe` in
`appOutDir` to `<productFilename>.exe` when the source executable exists;
when it is absent (e.g. on a second run over an already-renamed directory)
the rename rejection propagates out of the hook — the rename is not
best-effort. -/
theorem win_rename_amended (config : Configuration) (appOutDir productFilename : String)
    (fs : List String) :
    (pathJoin appOutDir ((createBrandingOpts config).projectName ++ ".exe") ∈ fs →
      beforeCopyExtraFilesWin config appOutDir productFilename fs
        = Except.ok (pathJoin appOutDir (productFilename ++ ".exe")
            :: fs.erase (pathJoin appOutDir ((createBrandingOpts config).projectName ++ ".exe"))))
    ∧ (pathJoin appOutDir ((createBrandingOpts config).projectName ++ ".exe") ∉ fs →
      beforeCopyExtraFilesWin config appOutDir productFilename fs
        = Except.error ("ENOENT: no such file or directory, rename "
            ++ pathJoin appOutDir ((createBrandingOpts config).projectName ++ ".exe"))) := by
  constructor <;> intro hmem <;> simp [beforeCopyExtraFilesWin, renameFs, hmem]

/-- C8 amended witness: a present source executable is renamed; an absent
one makes the hook fail. -/
theorem win_rename_amended_witness :
    beforeCopyExtraFilesWin cfgEmpty "/out" "MyApp" ["/out/electron.exe", "/out/LICENSE"]
      = Except.ok ["/out/MyApp.exe", "/out/LICENSE"]
    ∧ beforeCopyExtraFilesWin cfgEmpty "/out" "MyApp" ["/out/LICENSE"]
      = Except.error "ENOENT: no such file or directory, rename /out/electron.exe" :=
  ⟨(win_rename_amended cfgEmpty "/out" "MyApp" ["/out/electron.exe", "/out/LICENSE"]).1 (by decide),
   (win_rename_amended cfgEmpty "/out" "MyApp" ["/out/LICENSE"]).2 (by decide)⟩

/-! ## C4: prepacked asar without a discoverable version fails loudly -/

/-- A prepacked-asar packager fixture. -/
def pkgPrepacked : Packager := { pkgEx with isPrepackedAppAsar := true }

/-- A version environment where neither reader finds anything. -/
def envNoVersion : VersionEnv :=
  { installedVersion := none, computedVersion := Except.error "cannot find electron dependency" }

/-- C4: for a prepacked-asar build with no configured `electronVersion` and
no installed-package version discoverable, `createElectronFrameworkSupport`
throws the configuration error naming the problem (after exactly the one
installed-metadata read) — it never returns a framework. -/
theorem prepacked_missing_version_fatal (env : VersionEnv) (configuration : Configuration)
    (packager : Packager) (h1 : configuration.electronVersion = none)
    (h2 : packager.isPrepackedAppAsar = true) (h3 : env.installedVersion = none) :
    createElectronFrameworkSupport env configuration packager
      = (Except.error "Cannot compute electron version for prepacked asar",
          [VersionRead.readInstalled]) := by
  simp [createElectronFrameworkSupport, h1, h2, h3]

/-- C4 witness: the concrete prepacked fixture with nothing discoverable
fails with the configuration error. -/
theorem prepacked_missing_version_fatal_witness :
    createElectronFrameworkSupport envNoVersion cfgEmpty pkgPrepacked
      = (Except.error "Cannot compute electron version for prepacked asar",
          [VersionRead.readInstalled]) :=
  prepacked_missing_version_fatal envNoVersion cfgEmpty pkgPrepacked rfl rfl rfl

/-! ## C3: version short-circuit and idempotent write-back -/

/-- C3: when `electronVersion` is already configured the resolver returns
it unchanged with no metadata/manifest read and an unchanged
configuration; and whenever resolution succeeds, the resolved version has
been written back into the returned configuration, so a repeated call (with
any reader environment) short-circuits to the same framework with no reads
and no further configuration change. -/
theorem version_resolution_memoized (env env2 : VersionEnv) (configuration : Configuration)
    (packager : Packager) :
    (∀ v, configuration.electronVersion = some v →
      ∃ fw, createElectronFrameworkSupport env configuration packager
          = (Except.ok (fw, configuration), []) ∧ fw.version = v)
    ∧ (∀ fw cfg2 io,
        createElectronFrameworkSupport env configuration packager = (Except.ok (fw, cfg2), io) →
        cfg2.electronVersion = some fw.version
        ∧ createElectronFrameworkSupport env2 cfg2 packager = (Except.ok (fw, cfg2), [])) := by
  constructor
  · intro v hv
    exact ⟨mkFrameworkData (createBrandingOpts configuration) v, by
      simp [createElectronFrameworkSupport, hv], rfl⟩
  · intro fw cfg2 io h
    rcases hv : configuration.electronVersion with _ | v
    · by_cases hp : packager.isPrepackedAppAsar
      · rcases hi : env.installedVersion with _ | w
        · simp [createElectronFrameworkSupport, hv, hp, hi] at h
        · simp [createElectronFrameworkSupport, hv, hp, hi] at h
          rcases h with ⟨⟨hfw, hcfg⟩, hio⟩
          subst hfw
          subst hcfg
          constructor
          · simp [mkFrameworkData]
          · simp [createElectronFrameworkSupport, mkFrameworkData]
      · rcases hc : env.computedVersion with e | w
        · simp [createElectronFrameworkSupport, hv, hp, hc] at h
        · simp [createElectronFrameworkSupport, hv, hp, hc] at h
          rcases h with ⟨⟨hfw, hcfg⟩, hio⟩
          subst hfw
          subst hcfg
          constructor
          · simp [mkFrameworkData]
          · simp [createElectronFrameworkSupport, mkFrameworkData]
    · simp [createElectronFrameworkSupport, hv] at h
      rcases h with ⟨⟨hfw, hcfg⟩, hio⟩
      subst hfw
      subst hcfg
      constructor
      · simpa [mkFrameworkData] using hv
      · simp [createElectronFrameworkSupport, hv, mkFrameworkData]

/-- A version environment whose manifest computation finds 9.9.9. -/
def envComputed : VersionEnv :=
  { installedVersion := none, computedVersion := Except.ok "9.9.9" }

/-- The configuration produced by the write-back of the computed version. -/
def cfgAfterWriteBack : Configuration := { cfgEmpty with electronVersion := some "9.9.9" }

/-- A configuration with `electronVersion` preconfigured. -/
def cfgWithVersion : Configuration := { cfgEmpty with electronVersion := some "1.2.3" }

/-- C3 witness: a preconfigured version short-circuits with no reads, and a
computed resolution writes back 9.9.9 so the repeated call (under an
environment with no readers) short-circuits too. -/
theorem version_resolution_memoized_witness :
    (∃ fw, createElectronFrameworkSupport envNoVersion cfgWithVersion pkgEx
        = (Except.ok (fw, cfgWithVersion), []) ∧ fw.version = "1.2.3")
    ∧ (cfgAfterWriteBack.electronVersion
        = some (mkFrameworkData (createBrandingOpts cfgAfterWriteBack) "9.9.9").version
      ∧ createElectronFrameworkSupport envNoVersion cfgAfterWriteBack pkgEx
        = (Except.ok (mkFrameworkData (createBrandingOpts cfgAfterWriteBack) "9.9.9",
            cfgAfterWriteBack), [])) :=
  ⟨(version_resolution_memoized envNoVersion envNoVersion cfgWithVersion pkgEx).1 "1.2.3" rfl,
   (version_resolution_memoized envComputed envNoVersion cfgEmpty pkgEx).2
     (mkFrameworkData (createBrandingOpts cfgAfterWriteBack) "9.9.9") cfgAfterWriteBack
     [VersionRead.readManifest] rfl⟩

/-! ## C5: a cached zip in electronDist switches to delegated acquisition -/

/-- C5: whenever the resolved `electronDist` directory contains the
expected `electron-v<version>-<platform>-<arch>.zip`, `unpack` records that
directory as the download cache, never takes the local-copy strategy, and
performs no `emptyDir`/`copyDir` on the output directory. -/
theorem cached_zip_switches_to_delegated (env : UnpackEnv) (po : PrepareOptions)
    (opts : ElectronDownloadOptions) (dman d : String)
    (h1 : resolveElectronDist po = some d)
    (h2 : env.fsExists (pathJoin (resolvedDistDir po d) (zipFileName po.platformName opts)) = true) :
    (unpack env po opts dman).options.cache = some (resolvedDistDir po d)
    ∧ (unpack env po opts dman).strategy ≠ AcquisitionStrategy.localCopy
    ∧ (∀ p, FsEvent.emptyDirEv p ∉ (unpack env po opts dman).events)
    ∧ (∀ s t b, FsEvent.copyDirEv s t b ∉ (unpack env po opts dman).events) := by
  by_cases hs : po.packager.safeToUnpackOnRemote <;>
    by_cases hm : po.packager.platform = PlatformTy.MAC <;>
      simp [unpack, h1, h2, hs, hm, cleanupAfterUnpack]

/-- A distribution-directory packager fixture: `electronDist = "/dist"`. -/
def pkgDist : Packager :=
  { pkgEx with config := ⟨none, none, some (ElectronDistSpec.staticPath "/dist"), none⟩ }

/-- A darwin prepare context over `pkgDist`. -/
def poDist : PrepareOptions := ⟨pkgDist, "/out", ElectronPlatformName.darwin, "x64"⟩

/-- Download options naming version 20.0.0 on x64. -/
def optsV20 : ElectronDownloadOptions :=
  { edoEmpty with version := some "20.0.0", arch := some "x64" }

/-- An unpack environment where exactly the expected cached zip exists. -/
def envZip : UnpackEnv := ⟨fun p => p == "/dist/electron-v20.0.0-darwin-x64.zip"⟩

/-- C5 witness: with `/dist` holding `electron-v20.0.0-darwin-x64.zip`, the
acquirer caches from `/dist` and does not copy. -/
theorem cached_zip_switches_to_delegated_witness :
    (unpack envZip poDist optsV20 "Electron.app").options.cache = some "/dist"
    ∧ (unpack envZip poDist optsV20 "Electron.app").strategy ≠ AcquisitionStrategy.localCopy
    ∧ FsEvent.emptyDirEv "/out" ∉ (unpack envZip poDist optsV20 "Electron.app").events :=
  ⟨(cached_zip_switches_to_delegated envZip poDist optsV20 "Electron.app" "/dist" rfl rfl).1,
   (cached_zip_switches_to_delegated envZip poDist optsV20 "Electron.app" "/dist" rfl rfl).2.1,
   (cached_zip_switches_to_delegated envZip poDist optsV20 "Electron.app" "/dist" rfl rfl).2.2.1 "/out"⟩

/-! ## C1: which cleanup actions run on which acquisition path -/

/-- C1 amended: the two marker removals (`default_app.asar` under the
resources path and the top-level `version` file) run iff the local-copy
strategy was used; the LICENSE rename, however, runs iff cleanup was
reached at all (acquisition not skipped) and the platform is not macOS —
in particular it also runs after delegated acquisition. -/
theorem cleanup_actions_characterized (env : UnpackEnv) (po : PrepareOptions)
    (opts : ElectronDownloadOptions) (dman : String) :
    (FsEvent.unlinkIfExistsEv (pathJoin (cleanupResourcesPath po dman) "default_app.asar")
        ∈ (unpack env po opts dman).events
      ↔ (unpack env po opts dman).strategy = AcquisitionStrategy.localCopy)
    ∧ (FsEvent.unlinkIfExistsEv (pathJoin po.appOutDir "version") ∈ (unpack env po opts dman).events
      ↔ (unpack env po opts dman).strategy = AcquisitionStrategy.localCopy)
    ∧ (FsEvent.renameCatch (pathJoin po.appOutDir "LICENSE")
          (pathJoin po.appOutDir "LICENSE.electron.txt") ∈ (unpack env po opts dman).events
      ↔ ((unpack env po opts dman).strategy ≠ AcquisitionStrategy.skipped
          ∧ po.packager.platform ≠ PlatformTy.MAC)) := by
  rcases hd : resolveElectronDist po with _ | d
  · by_cases hs : po.packager.safeToUnpackOnRemote <;>
      by_cases hm : po.packager.platform = PlatformTy.MAC <;>
        simp [unpack, cleanupAfterUnpack, cleanupResourcesPath, hd, hs, hm]
  · by_cases hz : env.fsExists (pathJoin (resolvedDistDir po d) (zipFileName po.platformName opts)) <;>
      by_cases hs : po.packager.safeToUnpackOnRemote <;>
        by_cases hm : po.packager.platform = PlatformTy.MAC <;>
          simp [unpack, cleanupAfterUnpack, cleanupResourcesPath, hd, hz, hs, hm]

/-- The no-distribution, local-unpack-allowed prepare context (delegated
acquisition on linux). -/
def poDeleg : PrepareOptions := ⟨pkgEx, "/out", ElectronPlatformName.linux, "x64"⟩

/-- An unpack environment where no path exists. -/
def envNoFs : UnpackEnv := ⟨fun _ => false⟩

/-- C1 counterexample: on a linux delegated acquisition the LICENSE rename
action still runs (while the marker removals do not), so "the LICENSE
rename runs only on the local-copy path" is false. -/
theorem delegated_license_rename_counterexample :
    (unpack envNoFs poDeleg edoEmpty "Electron.app").strategy = AcquisitionStrategy.delegated
    ∧ FsEvent.renameCatch "/out/LICENSE" "/out/LICENSE.electron.txt"
        ∈ (unpack envNoFs poDeleg edoEmpty "Electron.app").events
    ∧ FsEvent.unlinkIfExistsEv "/out/resources/default_app.asar"
        ∉ (unpack envNoFs poDeleg edoEmpty "Electron.app").events
    ∧ FsEvent.unlinkIfExistsEv "/out/version"
        ∉ (unpack envNoFs poDeleg edoEmpty "Electron.app").events := by
  refine ⟨rfl, ?_, ?_, ?_⟩ <;> decide

/-! ## C2: the finalizer is not reached when acquisition is skipped -/

/-- C2 amended: `cleanupAfterUnpack` runs iff acquisition was not skipped:
it runs after delegated and local-copy acquisition, but the remote-build
early return leaves `unpack` before the cleanup call, so a skipped
acquisition performs no finalization at all. -/
theorem cleanup_runs_iff_not_skipped (env : UnpackEnv) (po : PrepareOptions)
    (opts : ElectronDownloadOptions) (dman : String) :
    (unpack env po opts dman).cleanupRan = true
      ↔ (unpack env po opts dman).strategy ≠ AcquisitionStrategy.skipped := by
  rcases hd : resolveElectronDist po with _ | d
  · by_cases hs : po.packager.safeToUnpackOnRemote <;> simp [unpack, hd, hs]
  · by_cases hz : env.fsExists (pathJoin (resolvedDistDir po d) (zipFileName po.platformName opts)) <;>
      by_cases hs : po.packager.safeToUnpackOnRemote <;> simp [unpack, hd, hz, hs]

/-- The remote-build prepare context: no distribution configured and local
unpack forbidden, on linux. -/
def poSkip : PrepareOptions :=
  ⟨{ pkgEx with safeToUnpackOnRemote := true }, "/out", ElectronPlatformName.linux, "x64"⟩

/-- C2 counterexample: when the environment forbids local unpacking and no
distribution is configured, acquisition is skipped and the finalizer never
runs — the trace is empty (not even the best-effort LICENSE rename is
attempted, although the target is linux). -/
theorem skipped_acquisition_no_finalize_counterexample :
    (unpack envNoFs poSkip edoEmpty "Electron.app").strategy = AcquisitionStrategy.skipped
    ∧ (unpack envNoFs poSkip edoEmpty "Electron.app").cleanupRan = false
    ∧ (unpack envNoFs poSkip edoEmpty "Electron.app").events = [] :=
  ⟨rfl, rfl, rfl⟩

end ElectronFramework
